import Mathlib

/-!
TranslationTask (src/common/translation_task.cpp)

A shallow embedding of the one live function of the file,

    Histories TranslationTask(const Sentences& sentences, size_t taskCounter) {
      thread_local std::unique_ptr<Search> search;
      if(!search) {
        LOG(info) << "Created Search for thread " << std::this_thread::get_id();
        search.reset(new Search(taskCounter));
      }
      assert(sentences.size());
      return search->Decode(sentences);
    }

The thread-local slot is explicit state (a map from thread identity to the
slot); the calls the function makes on its collaborators (the log sink, the
constructor of Search, Search::Decode) are recorded as the events of the call.
The class Search is declared in search.h, which is not among the sources, so
its constructor and its Decode are parameters of the embedding; both may throw.
The assert is taken as compiled in (NDEBUG not defined).
-/

namespace Amun

/-- Identity of a thread, the value of std::this_thread::get_id(). -/
abbrev ThreadId := Nat

/-- The class Search as TranslationTask uses it. The constructor and Decode are
not in the sources and are taken as parameters. An exception thrown by either is
an Except.error; Decode is a member function that is not const, so it also
yields the next internal state of the object. -/
structure SearchApi (Search Sentence Histories Err : Type) where
  /-- The expression new Search(taskCounter). -/
  construct : Nat → Except Err Search
  /-- The call search->Decode(sentences) on an object in the given state. -/
  Decode : Search → List Sentence → Search × Except Err Histories

/-- A Search object on the heap: the address new returned for it, the argument
its constructor was called with, and its internal state. The first two never
change and TranslationTask never reads them; they name the instance. -/
structure Engine (Search : Type) where
  addr : Nat
  taskCounter : Nat
  state : Search
deriving DecidableEq, Repr

/-- What a call of TranslationTask does to its collaborators, in program order. -/
inductive Event (Sentence : Type) where
  /-- LOG(info) << "Created Search for thread " << id. -/
  | log (tid : ThreadId)
  /-- The constructor call new Search(taskCounter). -/
  | construct (taskCounter : Nat)
  /-- The call Decode(sentences) on the object at addr. -/
  | decode (addr : Nat) (sentences : List Sentence)
deriving DecidableEq, Repr

/-- How a call of TranslationTask ends. -/
inductive Outcome (Histories Err : Type) where
  /-- The return statement was reached with this value. -/
  | returned (h : Histories)
  /-- An exception of a collaborator left the function. -/
  | threw (e : Err)
  /-- The assert failed and abort() ended the process. -/
  | aborted
deriving DecidableEq, Repr

/-- The state TranslationTask lives in: one thread_local unique_ptr per thread
(none is the null pointer) and the next address new hands out. -/
structure World (Search : Type) where
  search : ThreadId → Option (Engine Search)
  nextAddr : Nat

/-- The result of one call: its outcome, the events it made, the state it left. -/
structure Step (Search Sentence Histories Err : Type) where
  outcome : Outcome Histories Err
  events : List (Event Sentence)
  world : World Search

/-- A thrown exception or a returned value, as the outcome of the call. -/
def Outcome.ofExcept {Histories Err : Type} : Except Err Histories → Outcome Histories Err
  | .ok h => .returned h
  | .error e => .threw e

/-- The slot of thread tid set to hold e; the other threads keep theirs. -/
def World.reset {Search : Type} (w : World Search) (tid : ThreadId) (e : Engine Search) :
    ThreadId → Option (Engine Search) :=
  fun t => if t = tid then some e else w.search t

/-- The last two statements, with the engine the slot holds at that point:

    assert(sentences.size());
    return search->Decode(sentences);

evs are the events made so far. -/
def assertAndDecode {Search Sentence Histories Err : Type}
    (api : SearchApi Search Sentence Histories Err) (tid : ThreadId)
    (sentences : List Sentence) (e : Engine Search) (evs : List (Event Sentence))
    (w : World Search) : Step Search Sentence Histories Err :=
  if sentences.length = 0 then
    { outcome := .aborted, events := evs, world := w }
  else
    let r := api.Decode e.state sentences
    { outcome := Outcome.ofExcept r.2,
      events := evs ++ [Event.decode e.addr sentences],
      world := { w with search := w.reset tid { e with state := r.1 } } }

/-- The function TranslationTask, called on thread tid in state w. -/
def TranslationTask {Search Sentence Histories Err : Type}
    (api : SearchApi Search Sentence Histories Err) (tid : ThreadId)
    (sentences : List Sentence) (taskCounter : Nat) (w : World Search) :
    Step Search Sentence Histories Err :=
  match w.search tid with
  | some e =>
    -- if(!search) is false: the block is skipped
    assertAndDecode api tid sentences e [] w
  | none =>
    -- LOG(info) << ...; search.reset(new Search(taskCounter));
    match api.construct taskCounter with
    | .error err =>
      -- the constructor threw: reset is not reached, the slot stays null
      { outcome := .threw err,
        events := [Event.log tid, Event.construct taskCounter],
        world := w }
    | .ok s =>
      let e : Engine Search := { addr := w.nextAddr, taskCounter := taskCounter, state := s }
      assertAndDecode api tid sentences e [Event.log tid, Event.construct taskCounter]
        { search := w.reset tid e, nextAddr := w.nextAddr + 1 }

/-- One task: the arguments of one call of TranslationTask. -/
structure Call (Sentence : Type) where
  sentences : List Sentence
  taskCounter : Nat
deriving DecidableEq, Repr

/-- What a run of calls on one thread yields: the outcomes of the calls made,
all their events in order, and the final state. -/
structure Run (Search Sentence Histories Err : Type) where
  outcomes : List (Outcome Histories Err)
  events : List (Event Sentence)
  world : World Search

/-- The calls of a list made one after the other on thread tid. An exception
goes to the caller, who dispatches the next task; a failed assert ends the
process, so no later call is made. -/
def dispatchAll {Search Sentence Histories Err : Type}
    (api : SearchApi Search Sentence Histories Err) (tid : ThreadId) :
    List (Call Sentence) → World Search → Run Search Sentence Histories Err
  | [], w => { outcomes := [], events := [], world := w }
  | c :: cs, w =>
    let r := TranslationTask api tid c.sentences c.taskCounter w
    match r.outcome with
    | .aborted => { outcomes := [.aborted], events := r.events, world := r.world }
    | o =>
      let rest := dispatchAll api tid cs r.world
      { outcomes := o :: rest.outcomes, events := r.events ++ rest.events, world := rest.world }

/-- The arguments of the constructor calls among the events, in order. -/
def constructCalls {Sentence : Type} : List (Event Sentence) → List Nat
  | [] => []
  | .construct tc :: evs => tc :: constructCalls evs
  | _ :: evs => constructCalls evs

/-- The Decode calls among the events, in order: the object and the batch. -/
def decodeCalls {Sentence : Type} : List (Event Sentence) → List (Nat × List Sentence)
  | [] => []
  | .decode a b :: evs => (a, b) :: decodeCalls evs
  | _ :: evs => decodeCalls evs

/-- The values returned among the outcomes, in order. -/
def results {Histories Err : Type} : List (Outcome Histories Err) → List Histories
  | [] => []
  | .returned h :: os => h :: results os
  | _ :: os => results os

/-- Decode applied to the batches one after the other on one object that starts
in state s: the outcome of each, and the final state. -/
def decodeSeq {Search Sentence Histories Err : Type}
    (api : SearchApi Search Sentence Histories Err) :
    Search → List (List Sentence) → List (Outcome Histories Err) × Search
  | s, [] => ([], s)
  | s, b :: bs =>
    let r := api.Decode s b
    let rest := decodeSeq api r.1 bs
    (Outcome.ofExcept r.2 :: rest.1, rest.2)

/-- A state in which no thread has an engine yet. -/
def World.fresh (Search : Type) : World Search :=
  { search := fun _ => none, nextAddr := 0 }

/-- A small Search for the concrete checks: the state is the constructor
argument and the number of Decode calls so far; the constructor throws for
task id 0, Decode throws on a batch of more than three sentences and otherwise
tags every sentence with the task id and the call number. -/
def demoApi : SearchApi (Nat × Nat) String (List (String × Nat × Nat)) String where
  construct := fun tc => if tc = 0 then .error "no model" else .ok (tc, 0)
  Decode := fun s b =>
    ((s.1, s.2 + 1),
      if 3 < b.length then .error "too long" else .ok (b.map fun x => (x, s.1, s.2)))

/-! Single calls -/

theorem Outcome.ofExcept_ne_aborted {Histories Err : Type} (x : Except Err Histories) :
    Outcome.ofExcept x ≠ (Outcome.aborted : Outcome Histories Err) := by
  cases x <;> simp [Outcome.ofExcept]

theorem reset_same {Search : Type} (w : World Search) (tid : ThreadId) (e : Engine Search) :
    w.reset tid e tid = some e := by
  simp [World.reset]

theorem reset_other {Search : Type} (w : World Search) (tid t : ThreadId) (e : Engine Search)
    (h : t ≠ tid) : w.reset tid e t = w.search t := by
  simp [World.reset, h]

section Single

variable {Search Sentence Histories Err : Type}
variable (api : SearchApi Search Sentence Histories Err)

theorem assertAndDecode_nil (tid : ThreadId) (e : Engine Search) (evs : List (Event Sentence))
    (w : World Search) :
    assertAndDecode api tid [] e evs w = { outcome := .aborted, events := evs, world := w } := by
  simp [assertAndDecode]

theorem assertAndDecode_ne_nil (tid : ThreadId) (sentences : List Sentence) (e : Engine Search)
    (evs : List (Event Sentence)) (w : World Search) (hne : sentences ≠ []) :
    assertAndDecode api tid sentences e evs w =
      { outcome := Outcome.ofExcept (api.Decode e.state sentences).2,
        events := evs ++ [Event.decode e.addr sentences],
        world := { w with
          search := w.reset tid { e with state := (api.Decode e.state sentences).1 } } } := by
  simp [assertAndDecode, hne]

theorem TranslationTask_occupied (tid : ThreadId) (sentences : List Sentence) (taskCounter : Nat)
    (w : World Search) (e : Engine Search) (h : w.search tid = some e) :
    TranslationTask api tid sentences taskCounter w = assertAndDecode api tid sentences e [] w := by
  simp [TranslationTask, h]

theorem TranslationTask_construct_error (tid : ThreadId) (sentences : List Sentence)
    (taskCounter : Nat) (w : World Search) (err : Err) (h : w.search tid = none)
    (hc : api.construct taskCounter = .error err) :
    TranslationTask api tid sentences taskCounter w =
      { outcome := .threw err, events := [Event.log tid, Event.construct taskCounter],
        world := w } := by
  simp [TranslationTask, h, hc]

theorem TranslationTask_construct_ok (tid : ThreadId) (sentences : List Sentence)
    (taskCounter : Nat) (w : World Search) (s : Search) (h : w.search tid = none)
    (hc : api.construct taskCounter = .ok s) :
    TranslationTask api tid sentences taskCounter w =
      assertAndDecode api tid sentences
        { addr := w.nextAddr, taskCounter := taskCounter, state := s }
        [Event.log tid, Event.construct taskCounter]
        { search := w.reset tid { addr := w.nextAddr, taskCounter := taskCounter, state := s },
          nextAddr := w.nextAddr + 1 } := by
  simp [TranslationTask, h, hc]

/-- After the last two statements the slot of the calling thread holds the
object it held before them, whatever the batch and however Decode ends. -/
theorem assertAndDecode_slot (tid : ThreadId) (sentences : List Sentence) (e : Engine Search)
    (evs : List (Event Sentence)) (w : World Search) (h : w.search tid = some e) :
    ∃ e2, (assertAndDecode api tid sentences e evs w).world.search tid = some e2 ∧
      e2.addr = e.addr ∧ e2.taskCounter = e.taskCounter := by
  by_cases hne : sentences = []
  · subst hne
    rw [assertAndDecode_nil]
    exact ⟨e, h, rfl, rfl⟩
  · rw [assertAndDecode_ne_nil api tid sentences e evs w hne]
    exact ⟨_, reset_same _ _ _, rfl, rfl⟩

/-- The last two statements leave the slots of the other threads and the
allocator alone. -/
theorem assertAndDecode_frame (tid : ThreadId) (sentences : List Sentence) (e : Engine Search)
    (evs : List (Event Sentence)) (w : World Search) :
    (∀ t, t ≠ tid → (assertAndDecode api tid sentences e evs w).world.search t = w.search t) ∧
      (assertAndDecode api tid sentences e evs w).world.nextAddr = w.nextAddr := by
  by_cases hne : sentences = []
  · subst hne
    rw [assertAndDecode_nil]
    exact ⟨fun _ _ => rfl, rfl⟩
  · rw [assertAndDecode_ne_nil api tid sentences e evs w hne]
    exact ⟨fun t ht => reset_other _ _ _ _ ht, rfl⟩

/-- The events of the last two statements: those made before, then at most one
Decode, on the object the slot holds. -/
theorem assertAndDecode_events (tid : ThreadId) (sentences : List Sentence) (e : Engine Search)
    (evs : List (Event Sentence)) (w : World Search) :
    (assertAndDecode api tid sentences e evs w).events =
      evs ++ (if sentences.length = 0 then [] else [Event.decode e.addr sentences]) := by
  by_cases hne : sentences = []
  · subst hne
    rw [assertAndDecode_nil]
    simp
  · rw [assertAndDecode_ne_nil api tid sentences e evs w hne]
    simp [hne]

end Single

/-! Runs of calls on one thread -/

theorem constructCalls_append {Sentence : Type} (xs ys : List (Event Sentence)) :
    constructCalls (xs ++ ys) = constructCalls xs ++ constructCalls ys := by
  induction xs with
  | nil => rfl
  | cons x xs ih => cases x <;> simp [constructCalls, ih]

theorem decodeCalls_append {Sentence : Type} (xs ys : List (Event Sentence)) :
    decodeCalls (xs ++ ys) = decodeCalls xs ++ decodeCalls ys := by
  induction xs with
  | nil => rfl
  | cons x xs ih => cases x <;> simp [decodeCalls, ih]

theorem decodeCalls_map_decode {Sentence : Type} (a : Nat) (cs : List (Call Sentence)) :
    decodeCalls (cs.map fun c => Event.decode a c.sentences) =
      cs.map fun c => (a, c.sentences) := by
  induction cs with
  | nil => rfl
  | cons c cs ih => simp [decodeCalls, ih]

theorem constructCalls_map_decode {Sentence : Type} (a : Nat) (cs : List (Call Sentence)) :
    constructCalls (cs.map fun c => Event.decode a c.sentences) = [] := by
  induction cs with
  | nil => rfl
  | cons c cs ih => simp [constructCalls, ih]

section Runs

variable {Search Sentence Histories Err : Type}
variable (api : SearchApi Search Sentence Histories Err)

theorem dispatchAll_cons_aborted (tid : ThreadId) (c : Call Sentence) (cs : List (Call Sentence))
    (w : World Search)
    (h : (TranslationTask api tid c.sentences c.taskCounter w).outcome = .aborted) :
    dispatchAll api tid (c :: cs) w =
      { outcomes := [.aborted],
        events := (TranslationTask api tid c.sentences c.taskCounter w).events,
        world := (TranslationTask api tid c.sentences c.taskCounter w).world } := by
  simp only [dispatchAll]
  split
  · rfl
  · rename_i hna
    exact absurd h (hna)

theorem dispatchAll_cons_continue (tid : ThreadId) (c : Call Sentence)
    (cs : List (Call Sentence)) (w : World Search)
    (h : (TranslationTask api tid c.sentences c.taskCounter w).outcome ≠ .aborted) :
    dispatchAll api tid (c :: cs) w =
      { outcomes := (TranslationTask api tid c.sentences c.taskCounter w).outcome ::
          (dispatchAll api tid cs
            (TranslationTask api tid c.sentences c.taskCounter w).world).outcomes,
        events := (TranslationTask api tid c.sentences c.taskCounter w).events ++
          (dispatchAll api tid cs
            (TranslationTask api tid c.sentences c.taskCounter w).world).events,
        world := (dispatchAll api tid cs
            (TranslationTask api tid c.sentences c.taskCounter w).world).world } := by
  simp only [dispatchAll]

/-- A run that starts with the slot occupied: no constructor call, no
allocation, the slot keeps its object, and every Decode is on that object. -/
theorem dispatchAll_occupied (tid : ThreadId) (cs : List (Call Sentence)) :
    ∀ (w : World Search) (e : Engine Search), w.search tid = some e →
      constructCalls (dispatchAll api tid cs w).events = [] ∧
      (∃ e2, (dispatchAll api tid cs w).world.search tid = some e2 ∧
        e2.addr = e.addr ∧ e2.taskCounter = e.taskCounter) ∧
      (dispatchAll api tid cs w).world.nextAddr = w.nextAddr ∧
      ∀ p ∈ decodeCalls (dispatchAll api tid cs w).events, p.1 = e.addr := by
  induction cs with
  | nil =>
    intro w e h
    exact ⟨rfl, ⟨e, h, rfl, rfl⟩, rfl, by simp [dispatchAll, decodeCalls]⟩
  | cons c cs ih =>
    intro w e h
    have hT := TranslationTask_occupied api tid c.sentences c.taskCounter w e h
    have hev := assertAndDecode_events api tid c.sentences e [] w
    obtain ⟨e2, hs2, ha2, ht2⟩ := assertAndDecode_slot api tid c.sentences e [] w h
    have hfr := (assertAndDecode_frame api tid c.sentences e [] w).2
    have hc1 : constructCalls (assertAndDecode api tid c.sentences e [] w).events = [] := by
      rw [hev]; split <;> simp [constructCalls]
    have hd1 : ∀ p ∈ decodeCalls (assertAndDecode api tid c.sentences e [] w).events,
        p.1 = e.addr := by
      rw [hev]; split <;> simp [decodeCalls]
    by_cases hab : (TranslationTask api tid c.sentences c.taskCounter w).outcome = .aborted
    · rw [dispatchAll_cons_aborted api tid c cs w hab, hT]
      exact ⟨hc1, ⟨e2, hs2, ha2, ht2⟩, hfr, hd1⟩
    · rw [dispatchAll_cons_continue api tid c cs w hab, hT]
      obtain ⟨ic, ⟨e3, hs3, ha3, ht3⟩, inx, idc⟩ := ih _ e2 hs2
      refine ⟨?_, ⟨e3, hs3, ha3.trans ha2, ht3.trans ht2⟩, inx.trans hfr, ?_⟩
      · simp only [constructCalls_append, hc1, ic, List.append_nil]
      · intro p hp
        simp only [decodeCalls_append, List.mem_append] at hp
        rcases hp with hp | hp
        · exact hd1 p hp
        · exact (idc p hp).trans ha2

/-- A run of calls with batches that are not empty, started with the slot
occupied: call i ends as Decode of batch i ends on the object of the slot, in
the state the earlier Decode calls left it in; nothing else happens. -/
theorem dispatchAll_occupied_ne (tid : ThreadId) (cs : List (Call Sentence)) :
    ∀ (w : World Search) (e : Engine Search), w.search tid = some e →
      (∀ c ∈ cs, c.sentences ≠ []) →
      (dispatchAll api tid cs w).outcomes = (decodeSeq api e.state (cs.map Call.sentences)).1 ∧
      (dispatchAll api tid cs w).events = cs.map (fun c => Event.decode e.addr c.sentences) ∧
      (dispatchAll api tid cs w).world.search tid =
        some { e with state := (decodeSeq api e.state (cs.map Call.sentences)).2 } := by
  induction cs with
  | nil =>
    intro w e h _
    exact ⟨rfl, rfl, h⟩
  | cons c cs ih =>
    intro w e h hne
    have hc : c.sentences ≠ [] := hne c (List.mem_cons_self _ _)
    have hT : TranslationTask api tid c.sentences c.taskCounter w = _ :=
      (TranslationTask_occupied api tid c.sentences c.taskCounter w e h).trans
        (assertAndDecode_ne_nil api tid c.sentences e [] w hc)
    have hab : (TranslationTask api tid c.sentences c.taskCounter w).outcome ≠ .aborted := by
      rw [hT]; exact Outcome.ofExcept_ne_aborted _
    rw [dispatchAll_cons_continue api tid c cs w hab, hT]
    obtain ⟨io, ie, iw⟩ := ih
      { w with search := w.reset tid { e with state := (api.Decode e.state c.sentences).1 } }
      { e with state := (api.Decode e.state c.sentences).1 } (reset_same _ _ _)
      (fun c2 h2 => hne c2 (List.mem_cons_of_mem _ h2))
    refine ⟨?_, ?_, ?_⟩
    · simp only [io, List.map_cons, decodeSeq]
    · simp only [ie, List.map_cons, List.nil_append, List.singleton_append]
    · simp only [iw, List.map_cons, decodeSeq]

/-- A run whose first call finds the slot empty and whose constructor call
succeeds: that is the only constructor call and the only allocation of the run,
and the slot ends with the object it built. -/
theorem dispatchAll_first_construct_ok (tid : ThreadId) (c : Call Sentence)
    (cs : List (Call Sentence)) (w : World Search) (s : Search) (hw : w.search tid = none)
    (hc : api.construct c.taskCounter = .ok s) :
    constructCalls (dispatchAll api tid (c :: cs) w).events = [c.taskCounter] ∧
    (∃ e, (dispatchAll api tid (c :: cs) w).world.search tid = some e ∧
      e.addr = w.nextAddr ∧ e.taskCounter = c.taskCounter) ∧
    (dispatchAll api tid (c :: cs) w).world.nextAddr = w.nextAddr + 1 ∧
    ∀ p ∈ decodeCalls (dispatchAll api tid (c :: cs) w).events, p.1 = w.nextAddr := by
  have hT := TranslationTask_construct_ok api tid c.sentences c.taskCounter w s hw hc
  generalize he0 : ({ addr := w.nextAddr, taskCounter := c.taskCounter, state := s } :
    Engine Search) = e0 at hT
  generalize hw1 : ({ search := w.reset tid e0, nextAddr := w.nextAddr + 1 } :
    World Search) = w1 at hT
  have hs1 : w1.search tid = some e0 := by rw [← hw1]; exact reset_same _ _ _
  have hn1 : w1.nextAddr = w.nextAddr + 1 := by rw [← hw1]
  have ha0 : e0.addr = w.nextAddr := by rw [← he0]
  have ht0 : e0.taskCounter = c.taskCounter := by rw [← he0]
  have hev := assertAndDecode_events api tid c.sentences e0
    [Event.log tid, Event.construct c.taskCounter] w1
  obtain ⟨e2, hs2, ha2, ht2⟩ := assertAndDecode_slot api tid c.sentences e0
    [Event.log tid, Event.construct c.taskCounter] w1 hs1
  have hfr := (assertAndDecode_frame api tid c.sentences e0
    [Event.log tid, Event.construct c.taskCounter] w1).2
  have hc1 : constructCalls (assertAndDecode api tid c.sentences e0
      [Event.log tid, Event.construct c.taskCounter] w1).events = [c.taskCounter] := by
    rw [hev]; split <;> simp [constructCalls]
  have hd1 : ∀ p ∈ decodeCalls (assertAndDecode api tid c.sentences e0
      [Event.log tid, Event.construct c.taskCounter] w1).events, p.1 = w.nextAddr := by
    rw [hev]; split <;> simp [decodeCalls, ha0]
  by_cases hab : (TranslationTask api tid c.sentences c.taskCounter w).outcome = .aborted
  · rw [dispatchAll_cons_aborted api tid c cs w hab, hT]
    exact ⟨hc1, ⟨e2, hs2, ha2.trans ha0, ht2.trans ht0⟩, hfr.trans hn1, hd1⟩
  · rw [dispatchAll_cons_continue api tid c cs w hab, hT]
    obtain ⟨ic, ⟨e3, hs3, ha3, ht3⟩, inx, idc⟩ := dispatchAll_occupied api tid cs _ e2 hs2
    refine ⟨?_, ⟨e3, hs3, (ha3.trans ha2).trans ha0, (ht3.trans ht2).trans ht0⟩,
      (inx.trans hfr).trans hn1, ?_⟩
    · simp only [constructCalls_append, hc1, ic, List.append_nil]
    · intro p hp
      simp only [decodeCalls_append, List.mem_append] at hp
      rcases hp with hp | hp
      · exact hd1 p hp
      · exact ((idc p hp).trans ha2).trans ha0

/-- A run that starts with the slot empty allocates at most one object. -/
theorem dispatchAll_alloc_le (tid : ThreadId) (cs : List (Call Sentence)) :
    ∀ w : World Search, w.search tid = none →
      (dispatchAll api tid cs w).world.nextAddr ≤ w.nextAddr + 1 := by
  induction cs with
  | nil =>
    intro w _
    exact Nat.le_succ _
  | cons c cs ih =>
    intro w hw
    cases hc : api.construct c.taskCounter with
    | error err =>
      have hT := TranslationTask_construct_error api tid c.sentences c.taskCounter w err hw hc
      have hab : (TranslationTask api tid c.sentences c.taskCounter w).outcome ≠ .aborted := by
        rw [hT]; simp
      rw [dispatchAll_cons_continue api tid c cs w hab, hT]
      exact ih w hw
    | ok s =>
      exact le_of_eq (dispatchAll_first_construct_ok api tid c cs w s hw hc).2.2.1

/-- A run of calls with batches that are not empty whose first call finds the
slot empty and whose constructor call succeeds. -/
theorem dispatchAll_first_ok_ne (tid : ThreadId) (c : Call Sentence)
    (cs : List (Call Sentence)) (w : World Search) (s : Search) (hw : w.search tid = none)
    (hc : api.construct c.taskCounter = .ok s) (hne : ∀ c2 ∈ c :: cs, c2.sentences ≠ []) :
    (dispatchAll api tid (c :: cs) w).outcomes =
      (decodeSeq api s ((c :: cs).map Call.sentences)).1 ∧
    (dispatchAll api tid (c :: cs) w).events =
      [Event.log tid, Event.construct c.taskCounter] ++
        (c :: cs).map (fun c2 => Event.decode w.nextAddr c2.sentences) ∧
    (dispatchAll api tid (c :: cs) w).world.search tid =
      some { addr := w.nextAddr, taskCounter := c.taskCounter,
             state := (decodeSeq api s ((c :: cs).map Call.sentences)).2 } := by
  have hcne : c.sentences ≠ [] := hne c (List.mem_cons_self _ _)
  have hT : TranslationTask api tid c.sentences c.taskCounter w = _ :=
    (TranslationTask_construct_ok api tid c.sentences c.taskCounter w s hw hc).trans
      (assertAndDecode_ne_nil api tid c.sentences _ _ _ hcne)
  have hab : (TranslationTask api tid c.sentences c.taskCounter w).outcome ≠ .aborted := by
    rw [hT]; exact Outcome.ofExcept_ne_aborted _
  have hslot : (TranslationTask api tid c.sentences c.taskCounter w).world.search tid =
      some { addr := w.nextAddr, taskCounter := c.taskCounter,
             state := (api.Decode s c.sentences).1 } := by
    rw [hT]; exact reset_same _ _ _
  obtain ⟨io, ie, iw⟩ := dispatchAll_occupied_ne api tid cs _ _ hslot
    (fun c2 h2 => hne c2 (List.mem_cons_of_mem _ h2))
  rw [dispatchAll_cons_continue api tid c cs w hab]
  refine ⟨?_, ?_, ?_⟩
  · simp only [io, List.map_cons, decodeSeq]
    rw [hT]
  · simp only [ie, List.map_cons]
    rw [hT]
    simp only [List.cons_append, List.nil_append, List.append_assoc]
  · simp only [iw, List.map_cons, decodeSeq]

end Runs

theorem Outcome.ofExcept_eq_returned {Histories Err : Type} (x : Except Err Histories)
    (h : Histories) : Outcome.ofExcept x = .returned h ↔ x = .ok h := by
  cases x <;> simp [Outcome.ofExcept]

theorem decodeSeq_length {Search Sentence Histories Err : Type}
    (api : SearchApi Search Sentence Histories Err) (bs : List (List Sentence)) :
    ∀ s : Search, (decodeSeq api s bs).1.length = bs.length := by
  induction bs with
  | nil => intro s; rfl
  | cons b bs ih => intro s; simp [decodeSeq, ih]

theorem results_length {Histories Err : Type} (os : List (Outcome Histories Err))
    (h : ∀ o ∈ os, ∃ x, o = .returned x) : (results os).length = os.length := by
  induction os with
  | nil => rfl
  | cons o os ih =>
    obtain ⟨x, rfl⟩ := h o (List.mem_cons_self _ _)
    simp [results, ih fun o2 h2 => h o2 (List.mem_cons_of_mem _ h2)]

/-- On a thread other than the calling one the slot is the same before and
after the call. -/
theorem TranslationTask_other_slot {Search Sentence Histories Err : Type}
    (api : SearchApi Search Sentence Histories Err) (tid t : ThreadId)
    (sentences : List Sentence) (taskCounter : Nat) (w : World Search) (ht : t ≠ tid) :
    (TranslationTask api tid sentences taskCounter w).world.search t = w.search t := by
  cases hs : w.search tid with
  | some e =>
    rw [TranslationTask_occupied api tid sentences taskCounter w e hs]
    exact (assertAndDecode_frame api tid sentences e [] w).1 t ht
  | none =>
    cases hc : api.construct taskCounter with
    | error err => rw [TranslationTask_construct_error api tid sentences taskCounter w err hs hc]
    | ok s =>
      rw [TranslationTask_construct_ok api tid sentences taskCounter w s hs hc]
      exact ((assertAndDecode_frame api tid sentences _ _ _).1 t ht).trans
        (reset_other _ _ _ _ ht)

/-- The last two statements end the same way on two objects in the same state,
whatever else the two states of the program hold. -/
theorem assertAndDecode_outcome_state {Search Sentence Histories Err : Type}
    (api : SearchApi Search Sentence Histories Err) (tid : ThreadId)
    (sentences : List Sentence) (e e2 : Engine Search) (evs evs2 : List (Event Sentence))
    (w w2 : World Search) (h : e2.state = e.state) :
    (assertAndDecode api tid sentences e2 evs2 w2).outcome =
      (assertAndDecode api tid sentences e evs w).outcome := by
  by_cases hne : sentences = []
  · subst hne
    rw [assertAndDecode_nil, assertAndDecode_nil]
  · rw [assertAndDecode_ne_nil api tid sentences e2 evs2 w2 hne,
      assertAndDecode_ne_nil api tid sentences e evs w hne, h]

/-- The last two statements, run in two states whose slot of the calling thread
holds the same object: same outcome, same events, same slot afterwards. -/
theorem assertAndDecode_congr {Search Sentence Histories Err : Type}
    (api : SearchApi Search Sentence Histories Err) (tid : ThreadId)
    (sentences : List Sentence) (e : Engine Search) (evs : List (Event Sentence))
    (w w2 : World Search) (h : w.search tid = some e) (h2 : w2.search tid = some e) :
    (assertAndDecode api tid sentences e evs w2).outcome =
      (assertAndDecode api tid sentences e evs w).outcome ∧
    (assertAndDecode api tid sentences e evs w2).events =
      (assertAndDecode api tid sentences e evs w).events ∧
    (assertAndDecode api tid sentences e evs w2).world.search tid =
      (assertAndDecode api tid sentences e evs w).world.search tid := by
  by_cases hne : sentences = []
  · subst hne
    rw [assertAndDecode_nil, assertAndDecode_nil]
    exact ⟨rfl, rfl, h2.trans h.symm⟩
  · rw [assertAndDecode_ne_nil api tid sentences e evs w2 hne,
      assertAndDecode_ne_nil api tid sentences e evs w hne]
    exact ⟨rfl, rfl, (reset_same _ _ _).trans (reset_same _ _ _).symm⟩

/-- What a call does is a function of the slot of the calling thread (and, for
the address of a new object, of the allocator): two states that agree there
give the same outcome, the same events and the same slot afterwards, whatever
the slots of the other threads hold. -/
theorem TranslationTask_reads_own_slot {Search Sentence Histories Err : Type}
    (api : SearchApi Search Sentence Histories Err) (tid : ThreadId)
    (sentences : List Sentence) (taskCounter : Nat) (w w2 : World Search)
    (hsame : w2.search tid = w.search tid) :
    (TranslationTask api tid sentences taskCounter w2).outcome =
      (TranslationTask api tid sentences taskCounter w).outcome ∧
    (w2.nextAddr = w.nextAddr →
      (TranslationTask api tid sentences taskCounter w2).events =
        (TranslationTask api tid sentences taskCounter w).events ∧
      (TranslationTask api tid sentences taskCounter w2).world.search tid =
        (TranslationTask api tid sentences taskCounter w).world.search tid ∧
      (TranslationTask api tid sentences taskCounter w2).world.nextAddr =
        (TranslationTask api tid sentences taskCounter w).world.nextAddr) := by
  cases hs : w.search tid with
  | some e =>
    have hs2 : w2.search tid = some e := hsame.trans hs
    rw [TranslationTask_occupied api tid sentences taskCounter w e hs,
      TranslationTask_occupied api tid sentences taskCounter w2 e hs2]
    obtain ⟨ho, he, hw⟩ := assertAndDecode_congr api tid sentences e [] w w2 hs hs2
    refine ⟨ho, fun ha => ⟨he, hw, ?_⟩⟩
    rw [(assertAndDecode_frame api tid sentences e [] w2).2,
      (assertAndDecode_frame api tid sentences e [] w).2, ha]
  | none =>
    have hs2 : w2.search tid = none := hsame.trans hs
    cases hc : api.construct taskCounter with
    | error err =>
      rw [TranslationTask_construct_error api tid sentences taskCounter w err hs hc,
        TranslationTask_construct_error api tid sentences taskCounter w2 err hs2 hc]
      exact ⟨rfl, fun ha => ⟨rfl, hs2.trans hs.symm, ha⟩⟩
    | ok s =>
      rw [TranslationTask_construct_ok api tid sentences taskCounter w s hs hc,
        TranslationTask_construct_ok api tid sentences taskCounter w2 s hs2 hc]
      refine ⟨assertAndDecode_outcome_state api tid sentences _ _ _ _ _ _ rfl, fun ha => ?_⟩
      rw [ha]
      obtain ⟨_, he, hw⟩ := assertAndDecode_congr api tid sentences
        { addr := w.nextAddr, taskCounter := taskCounter, state := s }
        [Event.log tid, Event.construct taskCounter]
        { search := w.reset tid { addr := w.nextAddr, taskCounter := taskCounter, state := s },
          nextAddr := w.nextAddr + 1 }
        { search := w2.reset tid { addr := w.nextAddr, taskCounter := taskCounter, state := s },
          nextAddr := w.nextAddr + 1 }
        (reset_same _ _ _) (reset_same _ _ _)
      refine ⟨he, hw, ?_⟩
      rw [(assertAndDecode_frame api tid sentences _ _ _).2,
        (assertAndDecode_frame api tid sentences _ _ _).2]

/-- Every Decode call of a call is on the object that the slot of the calling
thread holds when the call ends. -/
theorem TranslationTask_decodes_own {Search Sentence Histories Err : Type}
    (api : SearchApi Search Sentence Histories Err) (tid : ThreadId)
    (sentences : List Sentence) (taskCounter : Nat) (w : World Search) :
    ∀ p ∈ decodeCalls (TranslationTask api tid sentences taskCounter w).events,
      ∃ e, (TranslationTask api tid sentences taskCounter w).world.search tid = some e ∧
        e.addr = p.1 := by
  have key : ∀ (e : Engine Search) (evs : List (Event Sentence)) (w1 : World Search),
      w1.search tid = some e → decodeCalls evs = [] →
      ∀ p ∈ decodeCalls (assertAndDecode api tid sentences e evs w1).events,
        ∃ e2, (assertAndDecode api tid sentences e evs w1).world.search tid = some e2 ∧
          e2.addr = p.1 := by
    intro e evs w1 h1 hev p hp
    obtain ⟨e2, hs2, ha2, _⟩ := assertAndDecode_slot api tid sentences e evs w1 h1
    refine ⟨e2, hs2, ?_⟩
    rw [assertAndDecode_events, decodeCalls_append, hev] at hp
    split at hp
    · simp [decodeCalls] at hp
    · simp only [decodeCalls, List.nil_append, List.mem_singleton] at hp
      rw [hp, ha2]
  cases hs : w.search tid with
  | some e =>
    rw [TranslationTask_occupied api tid sentences taskCounter w e hs]
    exact key e [] w hs rfl
  | none =>
    cases hc : api.construct taskCounter with
    | error err =>
      rw [TranslationTask_construct_error api tid sentences taskCounter w err hs hc]
      intro p hp
      simp [decodeCalls] at hp
    | ok s =>
      rw [TranslationTask_construct_ok api tid sentences taskCounter w s hs hc]
      exact key _ _ _ (reset_same _ _ _) rfl

/-! The claims -/

/-- C1 as the code has it. On a thread that starts with an empty slot, a run of
N ≥ 1 tasks allocates at most one Search whatever the collaborators do; and
when the constructor call of the first task succeeds, the constructor is called
exactly once in the whole run, with the task id of the first task. -/
theorem C1_single_construction {Search Sentence Histories Err : Type}
    (api : SearchApi Search Sentence Histories Err) (tid : ThreadId) (w : World Search)
    (c : Call Sentence) (cs : List (Call Sentence)) (hw : w.search tid = none) :
    (dispatchAll api tid (c :: cs) w).world.nextAddr ≤ w.nextAddr + 1 ∧
    ∀ s, api.construct c.taskCounter = .ok s →
      constructCalls (dispatchAll api tid (c :: cs) w).events = [c.taskCounter] ∧
      (dispatchAll api tid (c :: cs) w).world.nextAddr = w.nextAddr + 1 := by
  refine ⟨dispatchAll_alloc_le api tid (c :: cs) w hw, fun s hc => ?_⟩
  have h := dispatchAll_first_construct_ok api tid c cs w s hw hc
  exact ⟨h.1, h.2.2.1⟩

/-- C1 at a concrete run: two tasks on a fresh thread, both with task id 7. -/
theorem C1_single_construction_witness :
    (World.fresh (Nat × Nat)).search 0 = none ∧
    constructCalls (dispatchAll demoApi 0 [⟨["a"], 7⟩, ⟨["b"], 7⟩] (World.fresh _)).events
      = [7] :=
  ⟨rfl, ((C1_single_construction demoApi 0 (World.fresh _) ⟨["a"], 7⟩ [⟨["b"], 7⟩] rfl).2
    (7, 0) rfl).1⟩

/-- C1 as stated fails. The constructor throws for the first task, the caller
gets the exception and dispatches the second task on the same thread: the
constructor is called a second time, so twice in a run of two tasks. -/
theorem C1_counterexample :
    (World.fresh (Nat × Nat)).search 0 = none ∧
    (dispatchAll demoApi 0 [⟨["a"], 0⟩, ⟨["b"], 5⟩] (World.fresh _)).events =
      [.log 0, .construct 0, .log 0, .construct 5, .decode 0 ["b"]] ∧
    (constructCalls
      (dispatchAll demoApi 0 [⟨["a"], 0⟩, ⟨["b"], 5⟩] (World.fresh _)).events).length = 2 := by
  decide

/-- C2. For a batch that is not empty, the call returns h exactly when Decode
of the engine of the calling thread, applied to the batch, returns h: the
engine the slot held at entry, or, when the slot was empty, the engine the
constructor built from the task id. -/
theorem C2_returns_decode_result {Search Sentence Histories Err : Type}
    (api : SearchApi Search Sentence Histories Err) (tid : ThreadId)
    (sentences : List Sentence) (taskCounter : Nat) (w : World Search) (h : Histories)
    (hne : sentences ≠ []) :
    (TranslationTask api tid sentences taskCounter w).outcome = .returned h ↔
      match w.search tid with
      | some e => (api.Decode e.state sentences).2 = .ok h
      | none => ∃ s, api.construct taskCounter = .ok s ∧ (api.Decode s sentences).2 = .ok h := by
  cases hs : w.search tid with
  | some e =>
    rw [TranslationTask_occupied api tid sentences taskCounter w e hs,
      assertAndDecode_ne_nil api tid sentences e [] w hne]
    exact Outcome.ofExcept_eq_returned _ _
  | none =>
    cases hc : api.construct taskCounter with
    | error err =>
      rw [TranslationTask_construct_error api tid sentences taskCounter w err hs hc]
      simp
    | ok s =>
      rw [TranslationTask_construct_ok api tid sentences taskCounter w s hs hc,
        assertAndDecode_ne_nil api tid sentences _ _ _ hne]
      simp [Outcome.ofExcept_eq_returned]

/-- C2 at a concrete call: the batch hello with task id 7 on a fresh thread. -/
theorem C2_returns_decode_result_witness :
    ["hello"] ≠ [] ∧
    (TranslationTask demoApi 0 ["hello"] 7 (World.fresh _)).outcome
      = .returned [("hello", 7, 0)] :=
  ⟨by decide,
    (C2_returns_decode_result demoApi 0 ["hello"] 7 (World.fresh _) [("hello", 7, 0)]
      (by decide)).2 ⟨(7, 0), rfl, rfl⟩⟩

/-- C3. Let the first task of a thread carry task id X and let its constructor
call succeed, and let any tasks follow. The slot then holds the engine built
for X, and a further call with any batch and any task id Y makes no constructor
call, allocates nothing, leaves that same engine in the slot, and, when its
batch is not empty, makes its one Decode call on that engine and ends as that
Decode ends. -/
theorem C3_binding_stability {Search Sentence Histories Err : Type}
    (api : SearchApi Search Sentence Histories Err) (tid : ThreadId) (w : World Search)
    (b0 : List Sentence) (X : Nat) (s : Search) (later : List (Call Sentence))
    (b : List Sentence) (Y : Nat)
    (hw : w.search tid = none) (hX : api.construct X = .ok s) :
    ∃ e, (dispatchAll api tid (⟨b0, X⟩ :: later) w).world.search tid = some e ∧
      e.addr = w.nextAddr ∧ e.taskCounter = X ∧
      constructCalls (TranslationTask api tid b Y
        (dispatchAll api tid (⟨b0, X⟩ :: later) w).world).events = [] ∧
      (TranslationTask api tid b Y
        (dispatchAll api tid (⟨b0, X⟩ :: later) w).world).world.nextAddr =
          (dispatchAll api tid (⟨b0, X⟩ :: later) w).world.nextAddr ∧
      (∃ e2, (TranslationTask api tid b Y
        (dispatchAll api tid (⟨b0, X⟩ :: later) w).world).world.search tid = some e2 ∧
          e2.addr = e.addr ∧ e2.taskCounter = X) ∧
      (b ≠ [] →
        (TranslationTask api tid b Y
          (dispatchAll api tid (⟨b0, X⟩ :: later) w).world).events = [Event.decode e.addr b] ∧
        (TranslationTask api tid b Y
          (dispatchAll api tid (⟨b0, X⟩ :: later) w).world).outcome =
            Outcome.ofExcept (api.Decode e.state b).2) := by
  obtain ⟨_, ⟨e, hs, ha, ht⟩, _, _⟩ :=
    dispatchAll_first_construct_ok api tid ⟨b0, X⟩ later w s hw hX
  refine ⟨e, hs, ha, ht, ?_⟩
  generalize (dispatchAll api tid (⟨b0, X⟩ :: later) w).world = w1 at hs ⊢
  rw [TranslationTask_occupied api tid b Y w1 e hs]
  obtain ⟨e2, hs2, ha2, ht2⟩ := assertAndDecode_slot api tid b e [] w1 hs
  refine ⟨?_, (assertAndDecode_frame api tid b e [] w1).2, ⟨e2, hs2, ha2, ht2.trans ht⟩, ?_⟩
  · rw [assertAndDecode_events]; split <;> simp [constructCalls]
  · intro hb
    rw [assertAndDecode_ne_nil api tid b e [] w1 hb]
    exact ⟨rfl, rfl⟩

/-- C3 at the scenario of the specification: task A is the batch hello with task
id 7, task B the batch world, foo with task id 9, on a fresh thread. The call
for B makes no constructor call and decodes on the object at address 0, the one
built for 7. -/
theorem C3_binding_stability_witness :
    (World.fresh (Nat × Nat)).search 0 = none ∧ demoApi.construct 7 = .ok (7, 0) ∧
    ∃ e, (dispatchAll demoApi 0 [⟨["hello"], 7⟩] (World.fresh _)).world.search 0 = some e ∧
      e.addr = 0 ∧ e.taskCounter = 7 ∧
      constructCalls (TranslationTask demoApi 0 ["world", "foo"] 9
        (dispatchAll demoApi 0 [⟨["hello"], 7⟩] (World.fresh _)).world).events = [] :=
  ⟨rfl, rfl,
    match C3_binding_stability demoApi 0 (World.fresh _) ["hello"] 7 (7, 0) []
      ["world", "foo"] 9 rfl rfl with
    | ⟨e, hs, ha, ht, hc, _⟩ => ⟨e, hs, ha, ht, hc⟩⟩

/-- C4 as the code has it. A call with an empty batch never returns a value and
never calls Decode. It ends in the failed assert whenever the slot is occupied
at entry or the constructor call succeeds; when the slot is empty and the
constructor throws, it ends in that exception and the assert is not reached. -/
theorem C4_empty_batch_fails {Search Sentence Histories Err : Type}
    (api : SearchApi Search Sentence Histories Err) (tid : ThreadId) (taskCounter : Nat)
    (w : World Search) :
    decodeCalls (TranslationTask api tid [] taskCounter w).events = [] ∧
    (∀ h, (TranslationTask api tid [] taskCounter w).outcome ≠ .returned h) ∧
    ((w.search tid).isSome = true ∨ (∃ s, api.construct taskCounter = .ok s) →
      (TranslationTask api tid [] taskCounter w).outcome = .aborted) ∧
    (∀ err, w.search tid = none → api.construct taskCounter = .error err →
      (TranslationTask api tid [] taskCounter w).outcome = .threw err) := by
  cases hs : w.search tid with
  | some e =>
    rw [TranslationTask_occupied api tid [] taskCounter w e hs, assertAndDecode_nil]
    simp [decodeCalls]
  | none =>
    cases hc : api.construct taskCounter with
    | error err =>
      rw [TranslationTask_construct_error api tid [] taskCounter w err hs hc]
      simp [decodeCalls]
    | ok s =>
      rw [TranslationTask_construct_ok api tid [] taskCounter w s hs hc, assertAndDecode_nil]
      simp [decodeCalls]

/-- C4 as stated fails. On a thread with an empty slot and a task id for which
the constructor throws, the call with an empty batch ends in the exception of
the constructor, not in the failed assert. -/
theorem C4_counterexample :
    (TranslationTask demoApi 0 [] 0 (World.fresh _)).outcome = .threw "no model" ∧
    (TranslationTask demoApi 0 [] 0 (World.fresh _)).outcome ≠ .aborted := by
  decide

/-- C5. When the slot is empty and the constructor throws, the call ends in that
exception, makes no Decode call, and leaves the state as it was: the slot of
the calling thread is still empty and nothing was allocated. -/
theorem C5_construction_failure {Search Sentence Histories Err : Type}
    (api : SearchApi Search Sentence Histories Err) (tid : ThreadId)
    (sentences : List Sentence) (taskCounter : Nat) (w : World Search) (err : Err)
    (hslot : w.search tid = none) (hfail : api.construct taskCounter = .error err) :
    (TranslationTask api tid sentences taskCounter w).outcome = .threw err ∧
    decodeCalls (TranslationTask api tid sentences taskCounter w).events = [] ∧
    (TranslationTask api tid sentences taskCounter w).world.search tid = none ∧
    (TranslationTask api tid sentences taskCounter w).world.search = w.search ∧
    (TranslationTask api tid sentences taskCounter w).world.nextAddr = w.nextAddr := by
  rw [TranslationTask_construct_error api tid sentences taskCounter w err hslot hfail]
  exact ⟨rfl, rfl, hslot, rfl, rfl⟩

/-- C5 at a concrete call: task id 0, for which the constructor throws. -/
theorem C5_construction_failure_witness :
    (World.fresh (Nat × Nat)).search 0 = none ∧ demoApi.construct 0 = .error "no model" ∧
    (TranslationTask demoApi 0 ["hello"] 0 (World.fresh _)).outcome = .threw "no model" ∧
    (TranslationTask demoApi 0 ["hello"] 0 (World.fresh _)).world.search 0 = none :=
  ⟨rfl, rfl,
    (C5_construction_failure demoApi 0 ["hello"] 0 (World.fresh _) "no model" rfl rfl).1,
    (C5_construction_failure demoApi 0 ["hello"] 0 (World.fresh _) "no model" rfl rfl).2.2.1⟩

/-- C6. A slot that holds an engine holds the same engine (same object, built
for the same task id) after any call of TranslationTask, made on its own thread
or on another, with any batch and task id and however the call ends. -/
theorem C6_occupied_is_terminal {Search Sentence Histories Err : Type}
    (api : SearchApi Search Sentence Histories Err) (tid caller : ThreadId)
    (sentences : List Sentence) (taskCounter : Nat) (w : World Search) (e : Engine Search)
    (h : w.search tid = some e) :
    ∃ e2, (TranslationTask api caller sentences taskCounter w).world.search tid = some e2 ∧
      e2.addr = e.addr ∧ e2.taskCounter = e.taskCounter := by
  by_cases hc : tid = caller
  · subst hc
    rw [TranslationTask_occupied api tid sentences taskCounter w e h]
    exact assertAndDecode_slot api tid sentences e [] w h
  · exact ⟨e, (TranslationTask_other_slot api caller tid sentences taskCounter w hc).trans h,
      rfl, rfl⟩

/-- C6 at concrete calls: the engine built for hello with task id 7 is still in
the slot after a call whose assert fails and after a call whose Decode throws. -/
theorem C6_occupied_is_terminal_witness :
    (TranslationTask demoApi 0 ["hello"] 7 (World.fresh _)).world.search 0
      = some ⟨0, 7, (7, 1)⟩ ∧
    (TranslationTask demoApi 0 [] 9
        (TranslationTask demoApi 0 ["hello"] 7 (World.fresh _)).world).outcome = .aborted ∧
    (TranslationTask demoApi 0 ["a", "b", "c", "d"] 9
        (TranslationTask demoApi 0 ["hello"] 7 (World.fresh _)).world).outcome
      = .threw "too long" ∧
    (∃ e2, (TranslationTask demoApi 0 [] 9
        (TranslationTask demoApi 0 ["hello"] 7 (World.fresh _)).world).world.search 0 = some e2 ∧
      e2.addr = 0 ∧ e2.taskCounter = 7) ∧
    (∃ e2, (TranslationTask demoApi 0 ["a", "b", "c", "d"] 9
        (TranslationTask demoApi 0 ["hello"] 7 (World.fresh _)).world).world.search 0 = some e2 ∧
      e2.addr = 0 ∧ e2.taskCounter = 7) :=
  ⟨rfl, rfl, rfl,
    C6_occupied_is_terminal demoApi 0 0 [] 9
      (TranslationTask demoApi 0 ["hello"] 7 (World.fresh _)).world ⟨0, 7, (7, 1)⟩ rfl,
    C6_occupied_is_terminal demoApi 0 0 ["a", "b", "c", "d"] 9
      (TranslationTask demoApi 0 ["hello"] 7 (World.fresh _)).world ⟨0, 7, (7, 1)⟩ rfl⟩

/-- C7. A call on thread T reads and writes only the slot of T. Writes: the
slot of every other thread T2 is exactly what it was, empty or with the engine
it holds in the state it is in, however the call on T ends. Reads: in any
second state in which the slot of T is the same, whatever the slots of the
other threads hold there, the call ends the same way, and with the same
allocator it makes the same events and leaves the same slot of T. And every
Decode call it makes is on the object in the slot of T. -/
theorem C7_slot_independence {Search Sentence Histories Err : Type}
    (api : SearchApi Search Sentence Histories Err) (T : ThreadId)
    (sentences : List Sentence) (taskCounter : Nat) (w w2 : World Search)
    (hsame : w2.search T = w.search T) :
    (∀ T2, T2 ≠ T →
      (TranslationTask api T sentences taskCounter w).world.search T2 = w.search T2) ∧
    (TranslationTask api T sentences taskCounter w2).outcome =
      (TranslationTask api T sentences taskCounter w).outcome ∧
    (w2.nextAddr = w.nextAddr →
      (TranslationTask api T sentences taskCounter w2).events =
        (TranslationTask api T sentences taskCounter w).events ∧
      (TranslationTask api T sentences taskCounter w2).world.search T =
        (TranslationTask api T sentences taskCounter w).world.search T ∧
      (TranslationTask api T sentences taskCounter w2).world.nextAddr =
        (TranslationTask api T sentences taskCounter w).world.nextAddr) ∧
    (∀ p ∈ decodeCalls (TranslationTask api T sentences taskCounter w).events,
      ∃ e, (TranslationTask api T sentences taskCounter w).world.search T = some e ∧
        e.addr = p.1) :=
  ⟨fun T2 hne => TranslationTask_other_slot api T T2 sentences taskCounter w hne,
    (TranslationTask_reads_own_slot api T sentences taskCounter w w2 hsame).1,
    (TranslationTask_reads_own_slot api T sentences taskCounter w w2 hsame).2,
    TranslationTask_decodes_own api T sentences taskCounter w⟩

/-- C7 at concrete calls on thread 0, with a task id for which the constructor
throws and with one for which it succeeds. In the first state thread 1 holds an
engine, in the second no thread holds one; the slot of thread 0 is empty in
both. The slot of thread 1 is left alone, and the call makes the same events in
both states. -/
theorem C7_slot_independence_witness :
    (⟨fun _ => none, 1⟩ : World (Nat × Nat)).search 0 =
      (TranslationTask demoApi 1 ["hello"] 7 (World.fresh _)).world.search 0 ∧
    (TranslationTask demoApi 0 ["x"] 0
        (TranslationTask demoApi 1 ["hello"] 7 (World.fresh _)).world).world.search 1 =
      (TranslationTask demoApi 1 ["hello"] 7 (World.fresh _)).world.search 1 ∧
    (TranslationTask demoApi 0 ["x"] 3
        (TranslationTask demoApi 1 ["hello"] 7 (World.fresh _)).world).world.search 1 =
      (TranslationTask demoApi 1 ["hello"] 7 (World.fresh _)).world.search 1 ∧
    (TranslationTask demoApi 0 ["x"] 3 ⟨fun _ => none, 1⟩).events =
      (TranslationTask demoApi 0 ["x"] 3
        (TranslationTask demoApi 1 ["hello"] 7 (World.fresh _)).world).events :=
  ⟨rfl,
    (C7_slot_independence demoApi 0 ["x"] 0
      (TranslationTask demoApi 1 ["hello"] 7 (World.fresh _)).world
      ⟨fun _ => none, 1⟩ rfl).1 1 (by decide),
    (C7_slot_independence demoApi 0 ["x"] 3
      (TranslationTask demoApi 1 ["hello"] 7 (World.fresh _)).world
      ⟨fun _ => none, 1⟩ rfl).1 1 (by decide),
    ((C7_slot_independence demoApi 0 ["x"] 3
      (TranslationTask demoApi 1 ["hello"] 7 (World.fresh _)).world
      ⟨fun _ => none, 1⟩ rfl).2.2.1 rfl).1⟩

/-- C8 as the code has it. For tasks t1, ..., tn with batches that are not
empty, dispatched in that order on a thread that starts with an empty slot, if
the constructor call of t1 succeeds then the Decode calls of the run are exactly
the batches of t1, ..., tn in that order, one per task, all on the one object
the constructor built. -/
theorem C8_order_preservation {Search Sentence Histories Err : Type}
    (api : SearchApi Search Sentence Histories Err) (tid : ThreadId) (w : World Search)
    (c : Call Sentence) (cs : List (Call Sentence)) (s : Search)
    (hw : w.search tid = none) (hc : api.construct c.taskCounter = .ok s)
    (hne : ∀ c2 ∈ c :: cs, c2.sentences ≠ []) :
    decodeCalls (dispatchAll api tid (c :: cs) w).events =
      (c :: cs).map (fun c2 => (w.nextAddr, c2.sentences)) ∧
    (decodeCalls (dispatchAll api tid (c :: cs) w).events).map Prod.snd =
      (c :: cs).map Call.sentences ∧
    (decodeCalls (dispatchAll api tid (c :: cs) w).events).length = (c :: cs).length := by
  have h := (dispatchAll_first_ok_ne api tid c cs w s hw hc hne).2.1
  have hd : decodeCalls (dispatchAll api tid (c :: cs) w).events =
      (c :: cs).map (fun c2 => (w.nextAddr, c2.sentences)) := by
    rw [h, decodeCalls_append, decodeCalls_map_decode]
    rfl
  refine ⟨hd, ?_, ?_⟩
  · rw [hd, List.map_map]; rfl
  · rw [hd, List.length_map]

/-- C8 at the scenario of the specification: task A then task B. -/
theorem C8_order_preservation_witness :
    (World.fresh (Nat × Nat)).search 0 = none ∧ demoApi.construct 7 = .ok (7, 0) ∧
    (∀ c2 ∈ [(⟨["hello"], 7⟩ : Call String), ⟨["world", "foo"], 9⟩], c2.sentences ≠ []) ∧
    (decodeCalls (dispatchAll demoApi 0 [⟨["hello"], 7⟩, ⟨["world", "foo"], 9⟩]
        (World.fresh _)).events).map Prod.snd = [["hello"], ["world", "foo"]] :=
  ⟨rfl, rfl, by decide,
    (C8_order_preservation demoApi 0 (World.fresh _) ⟨["hello"], 7⟩ [⟨["world", "foo"], 9⟩]
      (7, 0) rfl rfl (by decide)).2.1⟩

/-- C8 as stated fails. Two tasks with batches that are not empty; the
constructor throws for the first, so the first task gets no Decode call and the
Decode calls of the run are the batch of the second task alone. -/
theorem C8_counterexample :
    (∀ c2 ∈ [(⟨["a"], 0⟩ : Call String), ⟨["b"], 5⟩], c2.sentences ≠ []) ∧
    (decodeCalls (dispatchAll demoApi 0 [⟨["a"], 0⟩, ⟨["b"], 5⟩]
        (World.fresh _)).events).map Prod.snd = [["b"]] ∧
    (decodeCalls (dispatchAll demoApi 0 [⟨["a"], 0⟩, ⟨["b"], 5⟩]
        (World.fresh _)).events).map Prod.snd ≠ [["a"], ["b"]] := by
  decide

/-- C9 as the code has it. For N ≥ 1 tasks with batches that are not empty,
dispatched in order on a thread that starts with an empty slot, if the
constructor call of the first task succeeds then the run has N outcomes, the
i-th being the outcome of Decode of the i-th batch (its value, or its exception
passed on) on the one object built on the first call from the task id of the
first task, in the state the earlier Decode calls left it in; the constructor
is called once, every Decode call is on that object, the slot holds it at the
end, and when no Decode throws the run has N results. -/
theorem C9_reuse_over_run {Search Sentence Histories Err : Type}
    (api : SearchApi Search Sentence Histories Err) (tid : ThreadId) (w : World Search)
    (c : Call Sentence) (cs : List (Call Sentence)) (s : Search)
    (hw : w.search tid = none) (hc : api.construct c.taskCounter = .ok s)
    (hne : ∀ c2 ∈ c :: cs, c2.sentences ≠ []) :
    (dispatchAll api tid (c :: cs) w).outcomes =
      (decodeSeq api s ((c :: cs).map Call.sentences)).1 ∧
    (dispatchAll api tid (c :: cs) w).outcomes.length = (c :: cs).length ∧
    constructCalls (dispatchAll api tid (c :: cs) w).events = [c.taskCounter] ∧
    (∀ p ∈ decodeCalls (dispatchAll api tid (c :: cs) w).events, p.1 = w.nextAddr) ∧
    (dispatchAll api tid (c :: cs) w).world.search tid =
      some { addr := w.nextAddr, taskCounter := c.taskCounter,
             state := (decodeSeq api s ((c :: cs).map Call.sentences)).2 } ∧
    ((∀ o ∈ (decodeSeq api s ((c :: cs).map Call.sentences)).1, ∃ h, o = .returned h) →
      results (dispatchAll api tid (c :: cs) w).outcomes =
        results (decodeSeq api s ((c :: cs).map Call.sentences)).1 ∧
      (results (dispatchAll api tid (c :: cs) w).outcomes).length = (c :: cs).length) := by
  obtain ⟨ho, _, hs⟩ := dispatchAll_first_ok_ne api tid c cs w s hw hc hne
  obtain ⟨hcc, _, _, hdc⟩ := dispatchAll_first_construct_ok api tid c cs w s hw hc
  have hlen : (decodeSeq api s ((c :: cs).map Call.sentences)).1.length = (c :: cs).length := by
    rw [decodeSeq_length, List.length_map]
  refine ⟨ho, by rw [ho, hlen], hcc, hdc, hs, fun hall => ?_⟩
  rw [ho]
  exact ⟨rfl, (results_length _ hall).trans hlen⟩

/-- C9 at the scenario of the specification: task A then task B, both decoded by
the engine built for task id 7. -/
theorem C9_reuse_over_run_witness :
    (World.fresh (Nat × Nat)).search 0 = none ∧ demoApi.construct 7 = .ok (7, 0) ∧
    (∀ c2 ∈ [(⟨["hello"], 7⟩ : Call String), ⟨["world", "foo"], 9⟩], c2.sentences ≠ []) ∧
    (dispatchAll demoApi 0 [⟨["hello"], 7⟩, ⟨["world", "foo"], 9⟩] (World.fresh _)).outcomes =
      (decodeSeq demoApi (7, 0) [["hello"], ["world", "foo"]]).1 ∧
    (decodeSeq demoApi (7, 0) [["hello"], ["world", "foo"]]).1 =
      [.returned [("hello", 7, 0)], .returned [("world", 7, 1), ("foo", 7, 1)]] :=
  ⟨rfl, rfl, by decide,
    (C9_reuse_over_run demoApi 0 (World.fresh _) ⟨["hello"], 7⟩ [⟨["world", "foo"], 9⟩]
      (7, 0) rfl rfl (by decide)).1,
    rfl⟩

/-- C9 as stated fails. Two tasks with batches that are not empty. When the
constructor throws for the first, the run has one result for two tasks, and the
engine that computed it was built on the second call from the task id of the
second task. When the constructor succeeds and Decode throws on the first
batch, the run again has one result for two tasks. -/
theorem C9_counterexample :
    (dispatchAll demoApi 0 [⟨["a"], 0⟩, ⟨["b"], 5⟩] (World.fresh _)).outcomes =
      [.threw "no model", .returned [("b", 5, 0)]] ∧
    (results (dispatchAll demoApi 0 [⟨["a"], 0⟩, ⟨["b"], 5⟩]
      (World.fresh _)).outcomes).length = 1 ∧
    (dispatchAll demoApi 0 [⟨["a"], 0⟩, ⟨["b"], 5⟩] (World.fresh _)).world.search 0 =
      some ⟨0, 5, (5, 1)⟩ ∧
    (dispatchAll demoApi 0 [⟨["a", "b", "c", "d"], 7⟩, ⟨["x"], 7⟩] (World.fresh _)).outcomes =
      [.threw "too long", .returned [("x", 7, 1)]] ∧
    (results (dispatchAll demoApi 0 [⟨["a", "b", "c", "d"], 7⟩, ⟨["x"], 7⟩]
      (World.fresh _)).outcomes).length = 1 := by
  decide

/-- C10. A call with an empty batch on a thread whose slot is empty makes
exactly two events, the creation diagnostic and then the constructor call with
the task id of the call, and no Decode call. When the constructor call succeeds
the slot holds the object it built, for that task id, the call ends in the
failed assert, the slot is no longer what it was, and a later call on the thread
with any batch and task id makes no constructor call. -/
theorem C10_assert_after_fill {Search Sentence Histories Err : Type}
    (api : SearchApi Search Sentence Histories Err) (tid : ThreadId) (taskCounter : Nat)
    (w : World Search) (hslot : w.search tid = none) :
    (TranslationTask api tid [] taskCounter w).events =
      [Event.log tid, Event.construct taskCounter] ∧
    ∀ s, api.construct taskCounter = .ok s →
      (TranslationTask api tid [] taskCounter w).outcome = .aborted ∧
      (TranslationTask api tid [] taskCounter w).world.search tid =
        some { addr := w.nextAddr, taskCounter := taskCounter, state := s } ∧
      (TranslationTask api tid [] taskCounter w).world.search tid ≠ w.search tid ∧
      ∀ (b : List Sentence) (Y : Nat),
        constructCalls (TranslationTask api tid b Y
          (TranslationTask api tid [] taskCounter w).world).events = [] := by
  cases hc : api.construct taskCounter with
  | error err =>
    rw [TranslationTask_construct_error api tid [] taskCounter w err hslot hc]
    exact ⟨rfl, fun s hs => by cases hs⟩
  | ok s =>
    rw [TranslationTask_construct_ok api tid [] taskCounter w s hslot hc, assertAndDecode_nil]
    refine ⟨rfl, fun s2 hs => ?_⟩
    cases hs
    refine ⟨rfl, reset_same _ _ _, ?_, fun b Y => ?_⟩
    · rw [hslot]
      show w.reset tid _ tid ≠ none
      rw [reset_same]
      exact Option.some_ne_none _
    · rw [TranslationTask_occupied api tid b Y _ _ (reset_same _ _ _), assertAndDecode_events]
      split <;> simp [constructCalls]

/-- C10 at a concrete call: an empty batch with task id 9 on a fresh thread. -/
theorem C10_assert_after_fill_witness :
    (World.fresh (Nat × Nat)).search 0 = none ∧ demoApi.construct 9 = .ok (9, 0) ∧
    (TranslationTask demoApi 0 [] 9 (World.fresh _)).events = [.log 0, .construct 9] ∧
    (TranslationTask demoApi 0 [] 9 (World.fresh _)).outcome = .aborted ∧
    (TranslationTask demoApi 0 [] 9 (World.fresh _)).world.search 0 = some ⟨0, 9, (9, 0)⟩ :=
  ⟨rfl, rfl,
    (C10_assert_after_fill demoApi 0 9 (World.fresh _) rfl).1,
    ((C10_assert_after_fill demoApi 0 9 (World.fresh _) rfl).2 (9, 0) rfl).1,
    ((C10_assert_after_fill demoApi 0 9 (World.fresh _) rfl).2 (9, 0) rfl).2.1⟩

end Amun
